import Mathlib

/-!
Verification of the KnotenCore interpreted-language runtime.

This development shallowly embeds the evaluator (`src/executor.rs`) and the
native-resource registry (`src/natives/registry.rs`) of the KnotenCore
repository and proves the specification's claims about them.

Modelling conventions:
* Rust `i64` is modelled as `Int` with results wrapped to two's complement
  (`wrap64`), the release-profile semantics; Rust truncating division `/`
  is `Int.tdiv`, except that the division-overflow input
  `i64::MIN / -1`, which panics in every build profile, is modelled as a
  panic.  (A debug build additionally panics on `+`/`-`/`*` overflow
  instead of wrapping; that profile divergence is not modelled.)
* Rust `f64` payloads are the type `F64`: the IEEE special values NaN,
  `inf` and `-inf` are modelled, with their equality, ordering and
  arithmetic semantics (NaN is not equal to itself); *finite* values are
  idealized as exact rationals, so rounding of finite results, overflow of
  finite arithmetic to infinity, and negative zero are not modelled.
* The Rust `HashMap` variable store is an association list whose insert
  replaces any previous binding of the key; the report renderer sorts
  before printing, exactly as the source does.
* A Rust panic (`unreachable!()`, division overflow) and fuel exhaustion
  of the recursive evaluator are both modelled as `none`; every
  terminating, panic-free run of the source corresponds to `some` for
  every large enough fuel.
-/

namespace KnotenCore

/-- The `f64` value space: the IEEE special values plus finite values
idealized as exact rationals.  Rounding of finite results, overflow of
finite arithmetic to infinity, and negative zero are not modelled; the
special values and their comparison semantics are, because claims turn on
them (NaN is not equal to itself under IEEE `==`). -/
inductive F64 where
  | finite (q : ℚ)
  | inf
  | negInf
  | nan
deriving DecidableEq

/-- IEEE `==` on `f64` (what Rust's derived `PartialEq` uses for the
`Float` payload): NaN compares unequal to everything, itself included;
each infinity equals itself; finite values compare as their (idealized
exact) numeric values.  Negative zero, which IEEE equates with zero, is
not modelled. -/
def f64Eq : F64 → F64 → Bool
  | .finite a, .finite b => a == b
  | .inf, .inf => true
  | .negInf, .negInf => true
  | _, _ => false

/-- IEEE `<` on `f64`: every comparison involving NaN is false; otherwise
`-inf <` finite `< inf`, finite values by numeric value. -/
def f64Lt : F64 → F64 → Bool
  | .finite a, .finite b => decide (a < b)
  | .finite _, .inf => true
  | .negInf, .finite _ => true
  | .negInf, .inf => true
  | _, _ => false

/-- IEEE negation on `f64` (NaN stays NaN, infinities flip). -/
def f64Neg : F64 → F64
  | .finite a => .finite (-a)
  | .inf => .negInf
  | .negInf => .inf
  | .nan => .nan

/-- IEEE addition on `f64`: NaN propagates, `inf + -inf` is NaN, an
infinity absorbs finite addends; finite sums are exact (the idealization —
real `f64` rounds and can overflow to infinity). -/
def f64Add : F64 → F64 → F64
  | .nan, _ => .nan
  | _, .nan => .nan
  | .finite a, .finite b => .finite (a + b)
  | .inf, .negInf => .nan
  | .negInf, .inf => .nan
  | .inf, _ => .inf
  | _, .inf => .inf
  | .negInf, _ => .negInf
  | _, .negInf => .negInf

/-- IEEE subtraction on `f64`, as addition of the negation. -/
def f64Sub (a b : F64) : F64 := f64Add a (f64Neg b)

/-- IEEE multiplication on `f64`: NaN propagates, zero times an infinity
is NaN, infinities multiply by sign; finite products are exact (the
idealization). -/
def f64Mul : F64 → F64 → F64
  | .nan, _ => .nan
  | _, .nan => .nan
  | .finite a, .finite b => .finite (a * b)
  | .finite a, .inf => if a = 0 then .nan else if 0 < a then .inf else .negInf
  | .finite a, .negInf => if a = 0 then .nan else if 0 < a then .negInf else .inf
  | .inf, .finite b => if b = 0 then .nan else if 0 < b then .inf else .negInf
  | .negInf, .finite b => if b = 0 then .nan else if 0 < b then .negInf else .inf
  | .inf, .inf => .inf
  | .inf, .negInf => .negInf
  | .negInf, .inf => .negInf
  | .negInf, .negInf => .inf

/-- IEEE division on `f64`: NaN propagates, `inf/inf` is NaN, a finite
value over an infinity is zero, an infinity over a finite value keeps the
sign; finite quotients are exact (the idealization).  The evaluator only
divides after its `rf == 0.0` guard, so the finite/zero case below is
never reached from `mathResult`. -/
def f64Div : F64 → F64 → F64
  | .nan, _ => .nan
  | _, .nan => .nan
  | .finite a, .finite b => .finite (a / b)
  | .finite _, .inf => .finite 0
  | .finite _, .negInf => .finite 0
  | .inf, .finite b => if 0 ≤ b then .inf else .negInf
  | .negInf, .finite b => if 0 ≤ b then .negInf else .inf
  | .inf, .inf => .nan
  | .inf, .negInf => .nan
  | .negInf, .inf => .nan
  | .negInf, .negInf => .nan

/-- Two's-complement wrap of an exact integer result into the `i64` range,
the release-profile semantics of Rust's `+`, `-` and `*` on `i64`.  (A
debug build panics on overflow instead; that divergence is outside the
model.) -/
def wrap64 (z : Int) : Int :=
  (z + 9223372036854775808) % 18446744073709551616 - 9223372036854775808

/-- The least `i64`, `-2^63`: the one numerator whose negation overflows,
making `i64::MIN / -1` panic in every build profile. -/
def i64Min : Int := -9223372036854775808

/-- The value model of the language: `RelType` from `src/executor.rs`
(`Int(i64)`, `Float(f64)`, `Bool(bool)`, `Str(String)`, `Void`), with
`i64` as `Int` and `f64` as `F64`. -/
inductive RelType where
  | Int (v : Int)
  | Float (v : F64)
  | Bool (v : Bool)
  | Str (v : String)
  | Void
deriving DecidableEq

/-- Evaluation outcomes: `ExecResult` from `src/executor.rs`. -/
inductive ExecResult where
  | Value (v : RelType)
  | ReturnBlockInfo (v : RelType)
  | Fault (msg : String)
deriving DecidableEq

/-- The AST node type `crate::ast::Node`.  The file `ast.rs` is not among
the sources; the constructors below are exactly the node kinds consumed by
the exhaustive match in `ExecutionEngine::evaluate` (`src/executor.rs`),
which are the only kinds any claim mentions. -/
inductive Node where
  | IntLiteral (v : Int)
  | FloatLiteral (v : F64)
  | BoolLiteral (v : Bool)
  | StringLiteral (v : String)
  | Identifier (name : String)
  | Assign (name : String) (expr : Node)
  | Add (l r : Node)
  | Sub (l r : Node)
  | Mul (l r : Node)
  | Div (l r : Node)
  | Eq (l r : Node)
  | Lt (l r : Node)
  | If (cond thenBr : Node) (elseBr : Option Node)
  | While (cond body : Node)
  | Block (nodes : List Node)
  | Return (val : Node)

/-- The variable store (`ExecutionEngine::memory`, a `HashMap<String, RelType>`),
modelled as an association list with unique keys. -/
abbrev Store := List (String × RelType)

/-- `HashMap::insert`: the new binding replaces any previous binding of the key. -/
def insertStore (name : String) (v : RelType) (st : Store) : Store :=
  (name, v) :: List.filter (fun p => p.1 != name) st

/-- `HashMap::get`. -/
def lookupStore (name : String) (st : Store) : Option RelType :=
  (List.find? (fun p => p.1 == name) st).map (fun p => p.2)

/-- Derived `PartialEq` on `RelType`: variant tags and payloads are compared
together, with no cross-variant coercion.  The `Float` payload comparison is
IEEE `f64` equality, which is *not* reflexive at NaN. -/
def relEq : RelType → RelType → Bool
  | .Int a, .Int b => a == b
  | .Float a, .Float b => f64Eq a b
  | .Bool a, .Bool b => a == b
  | .Str a, .Str b => a == b
  | .Void, .Void => true
  | _, _ => false

/-- The value-level part of `ExecutionEngine::do_math`: given the operator
character and the two operand outcomes, produce the arithmetic outcome.
`none` models a panic: either the `unreachable!()` on an operator character
other than the four that `evaluate` ever passes, or the division-overflow
panic of `li / ri` at `i64::MIN / -1` (the compiler's overflow check fires
there in every build profile; the source's zero check guards only the
divisor).  `+`/`-`/`*` on `i64` wrap per `wrap64`; the `f64` arms use the
IEEE operations of `F64`, with the zero-divisor guard being IEEE `==`
against `0.0`, exactly as `rf == 0.0` in the source. -/
def mathResult (op : Char) : ExecResult → ExecResult → Option ExecResult
  | .Value (.Int li), .Value (.Int ri) =>
    if op = '+' then some (.Value (.Int (wrap64 (li + ri))))
    else if op = '-' then some (.Value (.Int (wrap64 (li - ri))))
    else if op = '*' then some (.Value (.Int (wrap64 (li * ri))))
    else if op = '/' then
      if ri = 0 then some (.Fault "Division by zero")
      else if li = i64Min ∧ ri = -1 then none
      else some (.Value (.Int (Int.tdiv li ri)))
    else none
  | .Value (.Float lf), .Value (.Float rf) =>
    if op = '+' then some (.Value (.Float (f64Add lf rf)))
    else if op = '-' then some (.Value (.Float (f64Sub lf rf)))
    else if op = '*' then some (.Value (.Float (f64Mul lf rf)))
    else if op = '/' then
      some (if f64Eq rf (.finite 0) then .Fault "Division by zero"
            else .Value (.Float (f64Div lf rf)))
    else none
  | .Fault err, _ => some (.Fault err)
  | _, .Fault err => some (.Fault err)
  | _, _ => some (.Fault "Mathematical type mismatch")

/-- `ExecutionEngine::do_math`: evaluate the left operand, then the right
operand, then combine the two outcomes with `mathResult`.  `recur` is the
recursive evaluator supplied by `eval`. -/
def doMath (recur : Node → Store → Option (ExecResult × Store))
    (l r : Node) (op : Char) (st : Store) : Option (ExecResult × Store) :=
  match recur l st with
  | none => none
  | some (lv, st1) =>
    match recur r st1 with
    | none => none
    | some (rv, st2) =>
      match mathResult op lv rv with
      | none => none
      | some res => some (res, st2)

/-- The `Node::Block` loop of `ExecutionEngine::evaluate`: children are
evaluated in order, the first `ReturnBlockInfo` or `Fault` short-circuits,
and the block's value is the last child's value (`Void` for no children). -/
def runBlock (recur : Node → Store → Option (ExecResult × Store)) :
    List Node → RelType → Store → Option (ExecResult × Store)
  | [], lastVal, st => some (.Value lastVal, st)
  | n :: ns, lastVal, st =>
    match recur n st with
    | none => none
    | some (.ReturnBlockInfo v, st1) => some (.ReturnBlockInfo v, st1)
    | some (.Fault err, st1) => some (.Fault err, st1)
    | some (.Value v, st1) =>
      let _ := lastVal
      runBlock recur ns v st1

/-- One unfolding of `ExecutionEngine::evaluate`, with the recursive calls
abstracted as `recur`.  Every arm mirrors the corresponding arm of the
`match node` in `src/executor.rs`. -/
def evalStep (recur : Node → Store → Option (ExecResult × Store))
    (node : Node) (st : Store) : Option (ExecResult × Store) :=
  match node with
  | .IntLiteral v => some (.Value (.Int v), st)
  | .FloatLiteral v => some (.Value (.Float v), st)
  | .BoolLiteral v => some (.Value (.Bool v), st)
  | .StringLiteral v => some (.Value (.Str v), st)
  | .Identifier name =>
    match lookupStore name st with
    | some val => some (.Value val, st)
    | none => some (.Fault "Undefined identifier", st)
  | .Assign name expr =>
    match recur expr st with
    | none => none
    | some (.Value val, st1) => some (.Value val, insertStore name val st1)
    | some (.ReturnBlockInfo val, st1) => some (.Value val, insertStore name val st1)
    | some (.Fault err, st1) => some (.Fault err, st1)
  | .Add l r => doMath recur l r '+' st
  | .Sub l r => doMath recur l r '-' st
  | .Mul l r => doMath recur l r '*' st
  | .Div l r => doMath recur l r '/' st
  | .Eq l r =>
    match recur l st with
    | none => none
    | some (lv, st1) =>
      match recur r st1 with
      | none => none
      | some (rv, st2) =>
        match lv, rv with
        | .Value lVal, .Value rVal => some (.Value (.Bool (relEq lVal rVal)), st2)
        | .Fault err, _ => some (.Fault err, st2)
        | _, .Fault err => some (.Fault err, st2)
        | _, _ => some (.Fault "Invalid Eq semantics", st2)
  | .Lt l r =>
    match recur l st with
    | none => none
    | some (lv, st1) =>
      match recur r st1 with
      | none => none
      | some (rv, st2) =>
        match lv, rv with
        | .Value (.Int li), .Value (.Int ri) =>
          some (.Value (.Bool (decide (li < ri))), st2)
        | .Value (.Float lf), .Value (.Float rf) =>
          some (.Value (.Bool (f64Lt lf rf)), st2)
        | .Fault err, _ => some (.Fault err, st2)
        | _, .Fault err => some (.Fault err, st2)
        | _, _ => some (.Fault "Invalid Lt semantics", st2)
  | .If cond thenBr elseBr =>
    match recur cond st with
    | none => none
    | some (.Value (.Bool true), st1) => recur thenBr st1
    | some (.Value (.Bool false), st1) =>
      match elseBr with
      | some eb => recur eb st1
      | none => some (.Value .Void, st1)
    | some (.Fault err, st1) => some (.Fault err, st1)
    | some (_, st1) => some (.Fault "If condition not a boolean", st1)
  | .While cond body =>
    match recur cond st with
    | none => none
    | some (.Value (.Bool true), st1) =>
      match recur body st1 with
      | none => none
      | some (.ReturnBlockInfo r, st2) => some (.ReturnBlockInfo r, st2)
      | some (.Fault err, st2) => some (.Fault err, st2)
      | some (_, st2) => recur (.While cond body) st2
    | some (.Value (.Bool false), st1) => some (.Value .Void, st1)
    | some (.Fault err, st1) => some (.Fault err, st1)
    | some (_, st1) => some (.Fault "While condition not a boolean", st1)
  | .Block nodes => runBlock recur nodes .Void st
  | .Return valNode =>
    match recur valNode st with
    | none => none
    | some (.Value v, st1) => some (.ReturnBlockInfo v, st1)
    | some (.ReturnBlockInfo v, st1) => some (.ReturnBlockInfo v, st1)
    | some (.Fault err, st1) => some (.Fault err, st1)

/-- Fuel-indexed `ExecutionEngine::evaluate`.  The Rust function recurses on
the host stack without a bound; `none` means the fuel bound was reached (or a
panic path was hit), and every terminating run is reproduced by all
sufficiently large fuels. -/
def eval : Nat → Node → Store → Option (ExecResult × Store)
  | 0, _, _ => none
  | fuel + 1, node, st => evalStep (eval fuel) node st

/-- Lexicographic comparison of character lists; models the `Ord` instance
of Rust `String` (lexicographic byte order) used by `keys.sort()` in
`ExecutionEngine::execute`. -/
def charsLe : List Char → List Char → Bool
  | [], _ => true
  | _ :: _, [] => false
  | a :: as, b :: bs =>
    if a < b then true
    else if b < a then false
    else charsLe as bs

/-- The sort order on store entries: lexicographic on the variable name. -/
def entryLe (p q : String × RelType) : Prop := charsLe p.1.data q.1.data = true

instance : DecidableRel entryLe := fun _ _ => instDecidableEqBool _ _

/-- Digits after the decimal point of the fraction `n / d` (`0 ≤ n < d`),
most significant first, produced by repeated multiplication by 10; the
empty string when the remainder is exhausted.  This is the exact decimal
expansion of the rational, cut off after `fuel` digits (40 here, enough
for every expansion the idealized payloads of this development produce). -/
def natFracDigits (d : Nat) : Nat → Nat → String
  | 0, _ => ""
  | fuel + 1, n =>
    if n = 0 then ""
    else toString (n * 10 / d) ++ natFracDigits d fuel (n * 10 % d)

/-- The decimal form of Rust's `{:?}` for a finite nonzero `f64` whose
magnitude lies in `[1e-4, 1e16)`: optional sign, integer part, a mandatory
decimal point and at least one fractional digit (`1.0`, `0.5`, `-2.25`).
Digits are the exact expansion of the rational payload, which is the
string Rust's shortest-round-trip formatter prints whenever the
idealization of the payload as that rational is lossless. -/
def decimalRepr (n d : Nat) (neg : Bool) : String :=
  let frac := natFracDigits d 40 (n % d)
  (if neg then "-" else "") ++ toString (n / d) ++ "." ++
    (if frac = "" then "0" else frac)

/-- The decimal exponent of `n / d` for `d ≤ n`: the `e` with
`d * 10 ^ e ≤ n < d * 10 ^ (e + 1)`, found by scaling `d` upward
(fuel-bounded; 400 covers every `f64` magnitude). -/
def expUp (n : Nat) : Nat → Nat → Nat
  | 0, _ => 0
  | fuel + 1, d => if n < d * 10 then 0 else expUp n fuel (d * 10) + 1

/-- The positive scale of `n / d` for `0 < n < d`: the least `k ≥ 1` with
`d ≤ n * 10 ^ k`, found by scaling `n` upward (fuel-bounded). -/
def expDown (d : Nat) : Nat → Nat → Nat
  | 0, _ => 1
  | fuel + 1, n => if d ≤ n * 10 then 1 else expDown d fuel (n * 10) + 1

/-- The exponent form of Rust's `{:?}` for a finite nonzero `f64` whose
magnitude is below `1e-4` or at least `1e16`: optional sign, one leading
mantissa digit, further mantissa digits after a decimal point only when
they are nonzero, then `e` and the decimal exponent (`1e300`, `2.5e16`,
`1e-7`).  In particular a power of ten prints with *no* decimal point. -/
def exponentialRepr (n d : Nat) (neg : Bool) : String :=
  (if neg then "-" else "") ++
    (if d ≤ n then
      let e := expUp n 400 d
      let scale := d * 10 ^ e
      let frac := natFracDigits scale 40 (n % scale)
      toString (n / scale) ++ (if frac = "" then "" else "." ++ frac) ++
        "e" ++ toString e
    else
      let k := expDown d 400 n
      let m := n * 10 ^ k
      let frac := natFracDigits d 40 (m % d)
      toString (m / d) ++ (if frac = "" then "" else "." ++ frac) ++
        "e-" ++ toString k)

/-- Whether a finite `f64` payload falls in the regime where Rust's `{:?}`
uses decimal (not exponent) notation: zero, or magnitude in `[1e-4, 1e16)`.
Stated on the numerator and denominator (`|q| ≥ 1e-4 ↔ den ≤ |num| * 10^4`
and `|q| < 1e16 ↔ |num| < 10^16 * den`) to match `floatRepr`'s branch. -/
def inDecimalRegime (q : ℚ) : Prop :=
  q.num = 0 ∨
    (q.den ≤ q.num.natAbs * 10000 ∧
      q.num.natAbs < 10000000000000000 * q.den)

/-- Rendering of a `Float` payload; models Rust's `{:?}` (`Debug`)
formatting of `f64`, which the source uses precisely so that whole values
keep a trailing `.0`.  The structure is Rust's: `NaN`/`inf`/`-inf` for the
special values, `0.0` for zero, exponent notation (which need not contain
a decimal point) for magnitudes below `1e-4` or at least `1e16`, and
otherwise a decimal form that always contains a decimal point.  Digit
sequences are the exact decimal expansion of the idealized rational
payload, coinciding with Rust's shortest-round-trip digits exactly where
the idealization itself is lossless; negative zero (`-0.0`) is not
modelled. -/
def floatRepr : F64 → String
  | .nan => "NaN"
  | .inf => "inf"
  | .negInf => "-inf"
  | .finite q =>
    let n := q.num.natAbs
    let d := q.den
    if q.num = 0 then "0.0"
    else if n * 10000 < d ∨ 10000000000000000 * d ≤ n then
      exponentialRepr n d (decide (q.num < 0))
    else
      decimalRepr n d (decide (q.num < 0))

/-- The `Display` instance of `RelType` (`src/executor.rs`), used for the
terminal value of the report. -/
def displayRel : RelType → String
  | .Int v => toString v ++ " (i64)"
  | .Float v => floatRepr v ++ " (f64)"
  | .Bool v => toString v ++ " (bool)"
  | .Str v => "\"" ++ v ++ "\" (String)"
  | .Void => "void"

/-- Rendering of one memory binding, per the inner match of
`ExecutionEngine::execute`.  `none` models the `unreachable!()` panic that
the source hits when a `Void` value sits in the store. -/
def renderEntry : String × RelType → Option String
  | (k, .Str s) => some (k ++ " = " ++ "\"" ++ s ++ "\"")
  | (k, .Float q) => some (k ++ " = " ++ floatRepr q)
  | (k, .Int i) => some (k ++ " = " ++ toString i)
  | (k, .Bool b) => some (k ++ " = " ++ toString b)
  | (_, .Void) => none

/-- The rendering loop over the sorted bindings; `none` as soon as one
entry panics (`renderEntry`). -/
def renderEntries : List (String × RelType) → Option (List String)
  | [] => some []
  | p :: ps =>
    match renderEntry p with
    | none => none
    | some e =>
      match renderEntries ps with
      | none => none
      | some es => some (e :: es)

/-- The memory section of the report: nothing for an empty store, otherwise
`", Memory: "` followed by the bindings sorted by name and joined with
`", "`.  The source sorts the key list and looks each key up; with unique
keys that equals sorting the entries by key, which is what is done here. -/
def renderMemory (st : Store) : Option String :=
  if List.isEmpty st then some ""
  else
    match renderEntries (List.insertionSort entryLe st) with
    | none => none
    | some entries => some (", Memory: " ++ String.intercalate ", " entries)

/-- Rendering of one evaluation outcome into the report string
(`ExecutionEngine::execute` after the `evaluate` call): a fault renders as
exactly `"Fault: "` and the message; a success renders the terminal value
and then the memory section. -/
def renderReport : ExecResult × Store → Option String
  | (.Fault err, _) => some ("Fault: " ++ err)
  | (.Value v, st) =>
    match renderMemory st with
    | none => none
    | some m => some ("Return: " ++ displayRel v ++ m)
  | (.ReturnBlockInfo v, st) =>
    match renderMemory st with
    | none => none
    | some m => some ("Return: " ++ displayRel v ++ m)

/-- `ExecutionEngine::execute`: clear the store, evaluate the root node with
the given fuel, render the report. -/
def execute (fuel : Nat) (root : Node) : Option String :=
  match eval fuel root [] with
  | none => none
  | some out => renderReport out

/-! ## The native-resource registry (`src/natives/registry.rs`)

The registry is a process-global `HashMap<usize, RegistryEntry>` plus a
shared id counter, both behind mutexes; every operation acquires the lock
for its whole duration, so each operation is one atomic state transition
and the whole registry is modelled as a value of type `Registry` that each
operation transforms.  Native payloads (a `minifb` window, a `wgpu`
device, an open file, an `Instant`) are opaque to every claim and are
modelled by payload-free constructors, except for the counter value, the
voxel list and the timestamp start point, which the operations read or
mutate.  Each external effect is a parameter: the success of
`Window::new` / adapter / device acquisition is a `Bool` argument, and
`Instant::now()` is an `Int` argument.  `eprintln!` diagnostics are
returned as a list of log lines. -/

/-- The `NativeHandle` resource variants. -/
inductive NativeHandle where
  | Counter (count : Int)
  | Window
  | File
  | Timestamp (start : Int)
  | GpuContext
  | VoxelWorld (voxels : List (Int × Int × Int))
deriving DecidableEq

/-- A `RegistryEntry`: resource plus reference count (`usize`, so `Nat`). -/
structure RegistryEntry where
  handle : NativeHandle
  ref_count : Nat
deriving DecidableEq

/-- The global registry state: the handle table (`COUNTER_REGISTRY`) and the
shared id counter (`COUNTER_NEXT_ID`). -/
structure Registry where
  table : List (Nat × RegistryEntry)
  nextId : Nat
deriving DecidableEq

/-- `HashMap::get` on the handle table. -/
def tableGet (id : Nat) : List (Nat × RegistryEntry) → Option RegistryEntry
  | [] => none
  | p :: t => if p.1 = id then some p.2 else tableGet id t

/-- `HashMap::insert` on the handle table. -/
def tableInsert (id : Nat) (e : RegistryEntry) (t : List (Nat × RegistryEntry)) :
    List (Nat × RegistryEntry) :=
  (id, e) :: List.filter (fun p => p.1 != id) t

/-- `HashMap::remove` on the handle table. -/
def tableRemove (id : Nat) (t : List (Nat × RegistryEntry)) :
    List (Nat × RegistryEntry) :=
  List.filter (fun p => p.1 != id) t

/-- In-place mutation through `HashMap::get_mut`: apply `f` to the entry
under `id`, if present. -/
def tableModify (id : Nat) (f : RegistryEntry → RegistryEntry)
    (t : List (Nat × RegistryEntry)) : List (Nat × RegistryEntry) :=
  List.map (fun p => if p.1 = id then (p.1, f p.2) else p) t

/-- The `handle_id as usize` conversion.  A negative `i64` wraps to a huge
`usize` in Rust; since ids in the table are bounded by the allocation
counter, both the wrapped value and `Int.toNat`'s clamp to `0` (an id that
is never issued) are absent from the table, so the observable behaviour
agrees. -/
def asUsize (handle_id : Int) : Nat := handle_id.toNat

/-- `registry_retain`: increment the ref count of an existing entry; silently
do nothing for an absent handle. -/
def registry_retain (handle_id : Int) (R : Registry) : Registry :=
  ⟨tableModify (asUsize handle_id) (fun e => ⟨e.handle, e.ref_count + 1⟩) R.table,
    R.nextId⟩

/-- `registry_release`: decrement the ref count (only if positive) and remove
the entry when the count reaches zero.  The source emits no diagnostic on
any path, hence the log component is always empty. -/
def registry_release (handle_id : Int) (R : Registry) : Registry × List String :=
  let id := asUsize handle_id
  match tableGet id R.table with
  | none => (R, [])
  | some e =>
    let rc := if e.ref_count > 0 then e.ref_count - 1 else e.ref_count
    if rc = 0 then (⟨tableRemove id R.table, R.nextId⟩, [])
    else (⟨tableModify id (fun _ => ⟨e.handle, rc⟩) R.table, R.nextId⟩, [])

/-- `registry_create_counter`: allocate the next id, insert a counter at
value `0` with ref count `1`, return the id. -/
def registry_create_counter (R : Registry) : Registry × Int :=
  let id := R.nextId
  (⟨tableInsert id ⟨.Counter 0, 1⟩ R.table, id + 1⟩, Int.ofNat id)

/-- `registry_increment`: add one to a counter in place; log an error for a
wrong-kind or absent handle. -/
def registry_increment (handle_id : Int) (R : Registry) : Registry × List String :=
  let id := asUsize handle_id
  match tableGet id R.table with
  | none =>
    (R, ["[KnotenCore Registry] Error: Counter handle " ++ toString handle_id
          ++ " not found."])
  | some e =>
    match e.handle with
    | .Counter c =>
      (⟨tableModify id (fun _ => ⟨.Counter (c + 1), e.ref_count⟩) R.table,
        R.nextId⟩, [])
    | _ => (R, ["[KnotenCore Registry] Error: Target handle is not a Counter."])

/-- `registry_get_value`: read a counter.  An absent handle logs a not-found
error and returns `-1`; a wrong-kind handle returns `-1` without logging. -/
def registry_get_value (handle_id : Int) (R : Registry) : Int × List String :=
  match tableGet (asUsize handle_id) R.table with
  | some e =>
    match e.handle with
    | .Counter c => (c, [])
    | _ => (-1, [])
  | none =>
    (-1, ["[KnotenCore Registry] Error: Counter handle " ++ toString handle_id
          ++ " not found."])

/-- `registry_free`: unconditionally remove the entry regardless of its ref
count; warn about a double free when the handle is absent. -/
def registry_free (handle_id : Int) (R : Registry) : Registry × List String :=
  let id := asUsize handle_id
  match tableGet id R.table with
  | some _ => (⟨tableRemove id R.table, R.nextId⟩, [])
  | none =>
    (R, ["[KnotenCore Registry] Warning: Double free or invalid handle "
          ++ toString handle_id ++ "."])

/-- `registry_now`: allocate the next id and store a timestamp capturing the
current instant (`Instant::now()` is the `now` parameter). -/
def registry_now (now : Int) (R : Registry) : Registry × Int :=
  let id := R.nextId
  (⟨tableInsert id ⟨.Timestamp now, 1⟩ R.table, id + 1⟩, Int.ofNat id)

/-- `registry_elapsed_ms`: milliseconds since the stored start point; `-1`
for an absent or wrong-kind handle.  No path logs anything. -/
def registry_elapsed_ms (now : Int) (handle_id : Int) (R : Registry) :
    Int × List String :=
  match tableGet (asUsize handle_id) R.table with
  | some e =>
    match e.handle with
    | .Timestamp t => (now - t, [])
    | _ => (-1, [])
  | none => (-1, [])

/-- `registry_create_window`: the source allocates the next id from the
shared counter *before* attempting `Window::new` (whose success is the `ok`
parameter), so a failed creation still consumes the id; it returns `-1` and
inserts nothing on failure.  The window dimensions and title configure only
the native window and do not enter the registry state. -/
def registry_create_window (ok : Bool) (width height : Int) (title : String)
    (R : Registry) : Registry × Int × List String :=
  let _ := (width, height, title)
  let id := R.nextId
  if ok then
    (⟨tableInsert id ⟨.Window, 1⟩ R.table, id + 1⟩, Int.ofNat id, [])
  else
    (⟨R.table, id + 1⟩, -1, ["[KnotenCore Registry] Failed to create window."])

/-- `registry_gpu_init`: adapter and device acquisition (success given by the
two parameters) happen before any id is allocated; each failure returns `-1`
with the registry untouched.  The stdout adapter-info print of the success
path is not part of the diagnostic log. -/
def registry_gpu_init (adapterOk deviceOk : Bool) (R : Registry) :
    Registry × Int × List String :=
  if !adapterOk then
    (R, -1, ["[KnotenCore GPU] No suitable GPU adapter found."])
  else if !deviceOk then
    (R, -1, ["[KnotenCore GPU] Failed to create device."])
  else
    let id := R.nextId
    (⟨tableInsert id ⟨.GpuContext, 1⟩ R.table, id + 1⟩, Int.ofNat id, [])

/-- `registry_voxel_world_create`: the window is created first (success given
by `ok`); only on success is an id allocated and an empty voxel world
inserted.  On failure `-1` is returned and the registry is untouched. -/
def registry_voxel_world_create (ok : Bool) (width height : Int) (title : String)
    (R : Registry) : Registry × Int × List String :=
  let _ := (width, height, title)
  if ok then
    let id := R.nextId
    (⟨tableInsert id ⟨.VoxelWorld [], 1⟩ R.table, id + 1⟩, Int.ofNat id, [])
  else
    (R, -1, ["[KnotenCore Voxel] Failed to create window."])

/-- `registry_voxel_add_block`: push a voxel onto a voxel world.  Both the
absent-handle and the wrong-kind case are silent no-ops (the source has no
`else` branches here). -/
def registry_voxel_add_block (world_handle x y z : Int) (R : Registry) :
    Registry × List String :=
  let id := asUsize world_handle
  match tableGet id R.table with
  | some e =>
    match e.handle with
    | .VoxelWorld vs =>
      (⟨tableModify id (fun _ => ⟨.VoxelWorld (vs ++ [(x, y, z)]), e.ref_count⟩)
          R.table, R.nextId⟩, [])
    | _ => (R, [])
  | none => (R, [])

/-- `N` consecutive `registry_retain` calls on one handle. -/
def retainTimes (handle_id : Int) : Nat → Registry → Registry
  | 0, R => R
  | n + 1, R => retainTimes handle_id n (registry_retain handle_id R)

/-- `N` consecutive `registry_release` calls on one handle (diagnostic-free,
see `registry_release`). -/
def releaseTimes (handle_id : Int) : Nat → Registry → Registry
  | 0, R => R
  | n + 1, R => releaseTimes handle_id n (registry_release handle_id R).1

/-! ## Auxiliary notions used only to state the claims -/

/-- The four binary arithmetic node kinds, `Add`/`Sub`/`Mul`/`Div`. -/
inductive ArithOp where
  | add
  | sub
  | mul
  | div
deriving DecidableEq

/-- The node constructor of an arithmetic kind. -/
def ArithOp.node : ArithOp → Node → Node → Node
  | .add => .Add
  | .sub => .Sub
  | .mul => .Mul
  | .div => .Div

/-- The operator character `evaluate` passes to `do_math` for each kind. -/
def ArithOp.opChar : ArithOp → Char
  | .add => '+'
  | .sub => '-'
  | .mul => '*'
  | .div => '/'

/-- The six binary node kinds that evaluate both operands before combining
them: the four arithmetic kinds plus `Eq` and `Lt`. -/
inductive BinKind where
  | add
  | sub
  | mul
  | div
  | eq
  | lt
deriving DecidableEq

/-- The node constructor of a binary kind. -/
def BinKind.node : BinKind → Node → Node → Node
  | .add => .Add
  | .sub => .Sub
  | .mul => .Mul
  | .div => .Div
  | .eq => .Eq
  | .lt => .Lt

/-- Whether two values are of the same numeric variant (`Int`/`Int` or
`Float`/`Float`), the combinations `do_math` accepts. -/
def numericMatch : RelType → RelType → Bool
  | .Int _, .Int _ => true
  | .Float _, .Float _ => true
  | _, _ => false

/-- The variant tag of a value, for stating cross-variant properties. -/
def variantIdx : RelType → Nat
  | .Int _ => 0
  | .Float _ => 1
  | .Bool _ => 2
  | .Str _ => 3
  | .Void => 4

/-- Every entry present in the registry table has a positive ref count. -/
def posRC (R : Registry) : Prop := ∀ p ∈ R.table, 0 < p.2.ref_count

/-! ## Theorems -/

theorem eval_succ (fuel : Nat) (node : Node) (st : Store) :
    eval (fuel + 1) node st = evalStep (eval fuel) node st := rfl

theorem eval_arith (op : ArithOp) (fuel : Nat) (l r : Node) (st : Store) :
    eval (fuel + 1) (op.node l r) st = doMath (eval fuel) l r op.opChar st := by
  cases op <;> rfl

theorem mathResult_int (op : ArithOp) (a b : Int)
    (h : op = .div → b ≠ 0 ∧ ¬(a = i64Min ∧ b = -1)) :
    ∃ c : Int, mathResult op.opChar (.Value (.Int a)) (.Value (.Int b)) =
      some (.Value (.Int c)) := by
  cases op
  · exact ⟨wrap64 (a + b), rfl⟩
  · exact ⟨wrap64 (a - b), rfl⟩
  · exact ⟨wrap64 (a * b), rfl⟩
  · obtain ⟨hb, hmin⟩ := h rfl
    refine ⟨Int.tdiv a b, ?_⟩
    simp [mathResult, ArithOp.opChar, hb, hmin]

theorem mathResult_float (op : ArithOp) (a b : F64)
    (h : op = .div → f64Eq b (.finite 0) = false) :
    ∃ c : F64, mathResult op.opChar (.Value (.Float a)) (.Value (.Float b)) =
      some (.Value (.Float c)) := by
  cases op
  · exact ⟨f64Add a b, rfl⟩
  · exact ⟨f64Sub a b, rfl⟩
  · exact ⟨f64Mul a b, rfl⟩
  · refine ⟨f64Div a b, ?_⟩
    simp [mathResult, ArithOp.opChar, h rfl]

theorem mathResult_mismatch (op : ArithOp) (va vb : RelType)
    (h : numericMatch va vb = false) :
    mathResult op.opChar (.Value va) (.Value vb) =
      some (.Fault "Mathematical type mismatch") := by
  cases va <;> cases vb <;> simp_all [numericMatch, mathResult]

/-- C1 (amended): a binary arithmetic node on two operands of the same
numeric variant produces a value of that variant — `Int` results being the
two's-complement wrap of the exact value — except that `Int` division
panics (aborts with no outcome) at the single overflow input
`i64::MIN / -1`; operands of different variants, or any non-numeric
combination, fault with the type-mismatch message; and division with a
zero right operand — `Int` or `Float` — faults with the division-by-zero
message, never producing an infinity or NaN value. -/
theorem arith_same_variant_and_division_by_zero :
    (∀ (op : ArithOp) (fuel : Nat) (l r : Node) (st st1 st2 : Store) (a b : Int),
      eval fuel l st = some (.Value (.Int a), st1) →
      eval fuel r st1 = some (.Value (.Int b), st2) →
      (op = .div → b ≠ 0 ∧ ¬(a = i64Min ∧ b = -1)) →
      ∃ c : Int, eval (fuel + 1) (op.node l r) st = some (.Value (.Int c), st2)) ∧
    (∀ (op : ArithOp) (fuel : Nat) (l r : Node) (st st1 st2 : Store) (a b : F64),
      eval fuel l st = some (.Value (.Float a), st1) →
      eval fuel r st1 = some (.Value (.Float b), st2) →
      (op = .div → f64Eq b (.finite 0) = false) →
      ∃ c : F64, eval (fuel + 1) (op.node l r) st = some (.Value (.Float c), st2)) ∧
    (∀ (op : ArithOp) (fuel : Nat) (l r : Node) (st st1 st2 : Store) (va vb : RelType),
      eval fuel l st = some (.Value va, st1) →
      eval fuel r st1 = some (.Value vb, st2) →
      numericMatch va vb = false →
      eval (fuel + 1) (op.node l r) st =
        some (.Fault "Mathematical type mismatch", st2)) ∧
    (∀ (fuel : Nat) (l r : Node) (st st1 st2 : Store) (a : Int),
      eval fuel l st = some (.Value (.Int a), st1) →
      eval fuel r st1 = some (.Value (.Int 0), st2) →
      eval (fuel + 1) (.Div l r) st = some (.Fault "Division by zero", st2)) ∧
    (∀ (fuel : Nat) (l r : Node) (st st1 st2 : Store) (a : F64),
      eval fuel l st = some (.Value (.Float a), st1) →
      eval fuel r st1 = some (.Value (.Float (.finite 0)), st2) →
      eval (fuel + 1) (.Div l r) st = some (.Fault "Division by zero", st2)) ∧
    (∀ (fuel : Nat) (l r : Node) (st st1 st2 : Store),
      eval fuel l st = some (.Value (.Int i64Min), st1) →
      eval fuel r st1 = some (.Value (.Int (-1)), st2) →
      eval (fuel + 1) (.Div l r) st = none) := by
  refine ⟨?_, ?_, ?_, ?_, ?_, ?_⟩
  · intro op fuel l r st st1 st2 a b hl hr hb
    obtain ⟨c, hc⟩ := mathResult_int op a b hb
    exact ⟨c, by rw [eval_arith]; simp [doMath, hl, hr, hc]⟩
  · intro op fuel l r st st1 st2 a b hl hr hb
    obtain ⟨c, hc⟩ := mathResult_float op a b hb
    exact ⟨c, by rw [eval_arith]; simp [doMath, hl, hr, hc]⟩
  · intro op fuel l r st st1 st2 va vb hl hr hm
    rw [eval_arith]
    simp [doMath, hl, hr, mathResult_mismatch op va vb hm]
  · intro fuel l r st st1 st2 a hl hr
    have : eval (fuel + 1) (.Div l r) st = doMath (eval fuel) l r '/' st := rfl
    rw [this]
    simp [doMath, hl, hr, mathResult]
  · intro fuel l r st st1 st2 a hl hr
    have : eval (fuel + 1) (.Div l r) st = doMath (eval fuel) l r '/' st := rfl
    rw [this]
    simp [doMath, hl, hr, mathResult, f64Eq]
  · intro fuel l r st st1 st2 hl hr
    have : eval (fuel + 1) (.Div l r) st = doMath (eval fuel) l r '/' st := rfl
    rw [this]
    simp [doMath, hl, hr, mathResult, i64Min]

/-- C1 counterexample: the claim as stated promises a same-variant value
for every same-numeric-variant operand pair with nonzero divisor, but at
`i64::MIN / -1` the program's division overflows and panics
unconditionally ("attempt to divide with overflow"), producing no outcome
at all — modelled as `none`.  The second conjunct shows the same division
shape succeeding at fuel 2 with divisor `1`, so the `none` is the overflow
panic, not fuel exhaustion. -/
theorem arith_division_overflow_panic_counterexample :
    eval 2 (.Div (.IntLiteral (-9223372036854775808)) (.IntLiteral (-1))) [] =
      none ∧
    eval 2 (.Div (.IntLiteral (-9223372036854775808)) (.IntLiteral 1)) [] =
      some (.Value (.Int (-9223372036854775808)), []) := by
  exact ⟨by decide, by decide⟩

theorem arith_same_variant_and_division_by_zero_witness :
    (∃ c : Int, eval 2 (.Add (.IntLiteral 20) (.IntLiteral 22)) [] =
      some (.Value (.Int c), [])) ∧
    eval 2 (.Add (.IntLiteral 1) (.BoolLiteral true)) [] =
      some (.Fault "Mathematical type mismatch", []) ∧
    eval 2 (.Div (.IntLiteral 10) (.IntLiteral 0)) [] =
      some (.Fault "Division by zero", []) :=
  ⟨arith_same_variant_and_division_by_zero.1 .add 1 _ _ [] [] [] 20 22
      (by decide) (by decide) (by intro h; cases h),
    arith_same_variant_and_division_by_zero.2.2.1 .add 1 _ _ [] [] []
      (.Int 1) (.Bool true) (by decide) (by decide) (by decide),
    arith_same_variant_and_division_by_zero.2.2.2.1 1 _ _ [] [] [] 10
      (by decide) (by decide)⟩

theorem while_value_void (c b : Node) :
    ∀ (fuel : Nat) (st st' : Store) (v : RelType),
      eval fuel (.While c b) st = some (.Value v, st') → v = .Void := by
  intro fuel
  induction fuel with
  | zero => intro st st' v h; simp [eval] at h
  | succ fuel ih =>
    intro st st' v h
    rw [eval_succ] at h
    simp only [evalStep] at h
    rcases hc : eval fuel c st with _ | ⟨res, st1⟩ <;> rw [hc] at h
    · simp at h
    · cases res with
      | Value val =>
        cases val with
        | Bool bb =>
          cases bb
          · simp at h
            exact h.1.symm
          · simp only [] at h
            rcases hb : eval fuel b st1 with _ | ⟨res2, st2⟩ <;> rw [hb] at h
            · simp at h
            · cases res2 with
              | Value w => exact ih st2 st' v (by simpa using h)
              | ReturnBlockInfo r => simp at h
              | Fault e => simp at h
        | Int n => simp at h
        | Float q => simp at h
        | Str s => simp at h
        | Void => simp at h
      | ReturnBlockInfo r => simp at h
      | Fault e => simp at h

/-- C2: a `While` body that produces `EarlyReturn` terminates the loop at
once and the early-return value is the loop's own result, bypassing every
remaining iteration; and a `While` evaluation that produces a plain value —
which is exactly the normal exit, the condition having become `Bool false` —
always yields `Void`, whatever the last body evaluation produced. -/
theorem while_early_return_and_normal_exit_void :
    (∀ (fuel : Nat) (c b : Node) (st st1 st2 : Store) (r : RelType),
      eval fuel c st = some (.Value (.Bool true), st1) →
      eval fuel b st1 = some (.ReturnBlockInfo r, st2) →
      eval (fuel + 1) (.While c b) st = some (.ReturnBlockInfo r, st2)) ∧
    (∀ (fuel : Nat) (c b : Node) (st st' : Store) (v : RelType),
      eval fuel (.While c b) st = some (.Value v, st') → v = .Void) := by
  constructor
  · intro fuel c b st st1 st2 r hc hb
    rw [eval_succ]
    simp [evalStep, hc, hb]
  · intro fuel c b st st' v h
    exact while_value_void c b fuel st st' v h

theorem while_early_return_and_normal_exit_void_witness :
    eval 3 (.While (.BoolLiteral true) (.Return (.IntLiteral 7))) [] =
      some (.ReturnBlockInfo (.Int 7), []) ∧
    RelType.Void = RelType.Void :=
  ⟨while_early_return_and_normal_exit_void.1 2 _ _ [] [] [] (.Int 7)
      (by decide) (by decide),
    while_early_return_and_normal_exit_void.2 2 (.BoolLiteral false)
      (.IntLiteral 0) [] [] .Void (by decide)⟩

/-- C3: an `Assign` whose right-hand side reduces to a `Value` or to an
`EarlyReturn` installs the produced value in the store under the given name
and yields that value as a plain `Value`; a faulting right-hand side
propagates the fault unchanged and performs no write. -/
theorem assign_installs_on_success_skips_on_fault :
    (∀ (fuel : Nat) (name : String) (e : Node) (st st' : Store) (v : RelType),
      eval fuel e st = some (.Value v, st') →
      eval (fuel + 1) (.Assign name e) st =
        some (.Value v, insertStore name v st')) ∧
    (∀ (fuel : Nat) (name : String) (e : Node) (st st' : Store) (v : RelType),
      eval fuel e st = some (.ReturnBlockInfo v, st') →
      eval (fuel + 1) (.Assign name e) st =
        some (.Value v, insertStore name v st')) ∧
    (∀ (fuel : Nat) (name : String) (e : Node) (st st' : Store) (msg : String),
      eval fuel e st = some (.Fault msg, st') →
      eval (fuel + 1) (.Assign name e) st = some (.Fault msg, st')) := by
  refine ⟨?_, ?_, ?_⟩ <;> intro fuel name e st st' v h <;>
    rw [eval_succ] <;> simp [evalStep, h]

theorem assign_installs_on_success_skips_on_fault_witness :
    eval 2 (.Assign "x" (.IntLiteral 5)) [] =
      some (.Value (.Int 5), [("x", .Int 5)]) ∧
    eval 3 (.Assign "x" (.Return (.IntLiteral 6))) [] =
      some (.Value (.Int 6), [("x", .Int 6)]) ∧
    eval 2 (.Assign "x" (.Identifier "nope")) [] =
      some (.Fault "Undefined identifier", []) :=
  ⟨assign_installs_on_success_skips_on_fault.1 1 "x" _ [] [] (.Int 5) (by decide),
    assign_installs_on_success_skips_on_fault.2.1 2 "x" _ [] [] (.Int 6) (by decide),
    assign_installs_on_success_skips_on_fault.2.2 1 "x" _ [] []
      "Undefined identifier" (by decide)⟩

/-- C10: every binary arithmetic or comparison node evaluates both operand
subtrees before propagating any fault: when the left operand faults, the
right operand is still evaluated — its store effects are kept, as the final
store is the right operand's output store — and the left fault message is
the one propagated whatever the right outcome is (including a second fault).
The second conjunct exercises a right-operand `Assign` whose binding
survives a left-operand fault. -/
theorem binary_ops_evaluate_right_despite_left_fault :
    (∀ (k : BinKind) (fuel : Nat) (l r : Node) (st st1 st2 : Store)
        (e : String) (res : ExecResult),
      eval fuel l st = some (.Fault e, st1) →
      eval fuel r st1 = some (res, st2) →
      eval (fuel + 1) (k.node l r) st = some (.Fault e, st2)) ∧
    eval 3 (.Add (.Div (.IntLiteral 1) (.IntLiteral 0))
        (.Assign "z" (.IntLiteral 5))) [] =
      some (.Fault "Division by zero", [("z", .Int 5)]) := by
  constructor
  · intro k fuel l r st st1 st2 e res hl hr
    cases k <;> rw [eval_succ] <;>
      simp [BinKind.node, evalStep, doMath, hl, hr, mathResult]
  · decide

theorem binary_ops_evaluate_right_despite_left_fault_witness :
    eval 2 (.Eq (.Identifier "q") (.IntLiteral 1)) [] =
      some (.Fault "Undefined identifier", []) :=
  binary_ops_evaluate_right_despite_left_fault.1 .eq 1 _ _ [] [] []
    "Undefined identifier" (.Value (.Int 1)) (by decide) (by decide)

/-- C5: when the top-level evaluation faults, `execute` renders the fault
message only — no terminal value and no binding listing — and the block
program `{ x = 10; y = 10 / 0 }` yields exactly the report
`Fault: Division by zero` even though `x = 10` was bound before the fault. -/
theorem fault_report_renders_message_only :
    (∀ (fuel : Nat) (root : Node) (err : String) (st : Store),
      eval fuel root [] = some (.Fault err, st) →
      execute fuel root = some ("Fault: " ++ err)) ∧
    execute 4 (.Block [.Assign "x" (.IntLiteral 10),
      .Assign "y" (.Div (.IntLiteral 10) (.IntLiteral 0))]) =
      some "Fault: Division by zero" := by
  constructor
  · intro fuel root err st h
    simp [execute, h, renderReport]
  · decide

theorem fault_report_renders_message_only_witness :
    execute 2 (.Div (.IntLiteral 1) (.IntLiteral 0)) =
      some ("Fault: " ++ "Division by zero") :=
  fault_report_renders_message_only.1 2 _ _ [] (by decide)

/-- C6 (amended): evaluated equality is reflexive per variant for `Int`,
`Bool`, `Str`, `Void` and every non-NaN `Float` — `Eq(Int(1), Int(1))`
reduces to `Bool(true)` — but not at `Float(NaN)`: the derived `PartialEq`
compares `Float` payloads with IEEE `==`, under which NaN is unequal to
itself, so `Eq` on two copies of `Float(NaN)` yields `Bool(false)`.  Any
two values of distinct variants compare under the one uniform policy of
structural equality: the result is `Bool(false)`, never a fault and never
`true`, as the `Eq` node always reduces two operand values to
`Bool (relEq vl vr)`. -/
theorem eq_reflexive_and_cross_variant_false :
    (∀ i : Int, relEq (.Int i) (.Int i) = true) ∧
    (∀ b : Bool, relEq (.Bool b) (.Bool b) = true) ∧
    (∀ s : String, relEq (.Str s) (.Str s) = true) ∧
    relEq .Void .Void = true ∧
    (∀ q : ℚ, relEq (.Float (.finite q)) (.Float (.finite q)) = true) ∧
    relEq (.Float .inf) (.Float .inf) = true ∧
    relEq (.Float .negInf) (.Float .negInf) = true ∧
    relEq (.Float .nan) (.Float .nan) = false ∧
    (∀ v w : RelType, variantIdx v ≠ variantIdx w → relEq v w = false) ∧
    (∀ (fuel : Nat) (l r : Node) (st st1 st2 : Store) (vl vr : RelType),
      eval fuel l st = some (.Value vl, st1) →
      eval fuel r st1 = some (.Value vr, st2) →
      eval (fuel + 1) (.Eq l r) st = some (.Value (.Bool (relEq vl vr)), st2)) ∧
    eval 2 (.Eq (.IntLiteral 1) (.IntLiteral 1)) [] =
      some (.Value (.Bool true), []) ∧
    eval 2 (.Eq (.IntLiteral 1) (.FloatLiteral (.finite 1))) [] =
      some (.Value (.Bool false), []) := by
  refine ⟨?_, ?_, ?_, rfl, ?_, rfl, rfl, rfl, ?_, ?_, ?_, ?_⟩
  · intro i
    simp [relEq]
  · intro b
    simp [relEq]
  · intro s
    simp [relEq]
  · intro q
    simp [relEq, f64Eq]
  · intro v w h
    cases v <;> cases w <;> simp_all [variantIdx, relEq]
  · intro fuel l r st st1 st2 vl vr hl hr
    rw [eval_succ]
    simp [evalStep, hl, hr]
  · decide
  · decide

/-- C6 counterexample: the claim asserts that for every value `v` of any
variant, `Eq` on two copies of `v` yields `Bool(true)`; it fails at
`v = Float(NaN)` — a value the program reaches through a NaN float literal
in the deserialized AST, or as `inf - inf` — where the derived `PartialEq`
applies IEEE `==` and the evaluated `Eq` yields `Bool(false)`. -/
theorem eq_nan_not_reflexive_counterexample :
    eval 2 (.Eq (.FloatLiteral .nan) (.FloatLiteral .nan)) [] =
      some (.Value (.Bool false), []) := by
  decide

theorem eq_reflexive_and_cross_variant_false_witness :
    eval 2 (.Eq (.StringLiteral "a") (.BoolLiteral true)) [] =
      some (.Value (.Bool (relEq (.Str "a") (.Bool true))), []) :=
  eq_reflexive_and_cross_variant_false.2.2.2.2.2.2.2.2.2.1 1 _ _ [] [] []
    (.Str "a") (.Bool true) (by decide) (by decide)

theorem charsLe_total : ∀ as bs : List Char,
    charsLe as bs = true ∨ charsLe bs as = true := by
  intro as
  induction as with
  | nil => intro bs; left; simp [charsLe]
  | cons a as ih =>
    intro bs
    cases bs with
    | nil => right; simp [charsLe]
    | cons b bs =>
      by_cases hab : a < b
      · left; simp [charsLe, hab]
      · by_cases hba : b < a
        · right; simp [charsLe, hba]
        · have heq : a = b := le_antisymm (not_lt.mp hba) (not_lt.mp hab)
          subst heq
          rcases ih bs with h | h
          · left; simp [charsLe, lt_irrefl, h]
          · right; simp [charsLe, lt_irrefl, h]

theorem charsLe_trans : ∀ as bs cs : List Char,
    charsLe as bs = true → charsLe bs cs = true → charsLe as cs = true := by
  intro as
  induction as with
  | nil => intro bs cs h1 h2; simp [charsLe]
  | cons a as ih =>
    intro bs cs h1 h2
    cases bs with
    | nil => simp [charsLe] at h1
    | cons b bs =>
      cases cs with
      | nil => simp [charsLe] at h2
      | cons c cs =>
        simp only [charsLe] at h1 h2 ⊢
        by_cases hab : a < b
        · by_cases hbc : b < c
          · simp [hab.trans hbc]
          · by_cases hcb : c < b
            · simp [hbc, hcb] at h2
            · have heq : b = c := le_antisymm (not_lt.mp hcb) (not_lt.mp hbc)
              subst heq
              simp [hab]
        · by_cases hba : b < a
          · simp [hab, hba] at h1
          · have heq : a = b := le_antisymm (not_lt.mp hba) (not_lt.mp hab)
            subst heq
            simp [lt_irrefl] at h1
            by_cases hac : a < c
            · simp [hac]
            · by_cases hca : c < a
              · simp [hac, hca] at h2
              · have heq : a = c := le_antisymm (not_lt.mp hca) (not_lt.mp hac)
                subst heq
                simp [lt_irrefl] at h2 ⊢
                exact ih bs cs h1 h2

instance : IsTotal (String × RelType) entryLe :=
  ⟨fun p q => charsLe_total p.1.data q.1.data⟩

instance : IsTrans (String × RelType) entryLe :=
  ⟨fun _ _ _ h1 h2 => charsLe_trans _ _ _ h1 h2⟩

theorem dot_mem_floatRepr_decimal (q : ℚ) (h : inDecimalRegime q) :
    '.' ∈ (floatRepr (.finite q)).data := by
  have hdot : ('.' : Char) ∈ (".").data := by decide
  by_cases h0 : q.num = 0
  · simp [floatRepr, h0]
  · rcases h with h0' | ⟨h1, h2⟩
    · exact absurd h0' h0
    · simp only [floatRepr]
      rw [if_neg h0, if_neg (not_or.mpr ⟨not_lt.mpr h1, not_le.mpr h2⟩)]
      simp [decimalRepr, String.data_append, hdot]

example : floatRepr (.finite 1) = "1.0" := by decide

example : floatRepr (.finite (⟨1, 2, two_ne_zero, Nat.coprime_one_left _⟩ : ℚ)) =
    "0.5" := by decide

example : floatRepr (.finite (⟨-1, 2, two_ne_zero,
    show ((-1 : Int)).natAbs.Coprime 2 from Nat.coprime_one_left 2⟩ : ℚ)) =
    "-0.5" := by decide

example : floatRepr (.finite (⟨100000000000000000000, 1, one_ne_zero,
    Nat.coprime_one_right _⟩ : ℚ)) = "1e20" := by decide

example : floatRepr (.finite (⟨1, 400000000000000, by norm_num,
    Nat.coprime_one_left _⟩ : ℚ)) = "2.5e-15" := by decide

example : floatRepr (.finite (⟨1, 10000000, by norm_num,
    Nat.coprime_one_left _⟩ : ℚ)) = "1e-7" := by decide

example : floatRepr .nan = "NaN" := by decide

example : floatRepr (.finite 0) = "0.0" := by decide

example : wrap64 (9223372036854775807 + 1) = -9223372036854775808 := by decide

theorem renderEntries_isSome :
    ∀ l : List (String × RelType), (∀ p ∈ l, p.2 ≠ RelType.Void) →
      ∃ es, renderEntries l = some es := by
  intro l
  induction l with
  | nil => intro _; exact ⟨[], rfl⟩
  | cons p l ih =>
    intro h
    obtain ⟨es, hes⟩ := ih (fun q hq => h q (List.mem_cons_of_mem p hq))
    obtain ⟨e, he⟩ : ∃ e, renderEntry p = some e := by
      obtain ⟨k, v⟩ := p
      have hp : v ≠ RelType.Void := h (k, v) (List.mem_cons_self _ l)
      cases v with
      | Int i => exact ⟨_, rfl⟩
      | Float f => exact ⟨_, rfl⟩
      | Bool b => exact ⟨_, rfl⟩
      | Str s => exact ⟨_, rfl⟩
      | Void => exact absurd rfl hp
    exact ⟨e :: es, by simp [renderEntries, he, hes]⟩

/-- C4 (amended): for every program whose top-level evaluation succeeds and
whose live bindings are all of variant `Int`, `Float`, `Bool` or `Str`,
`execute` renders the terminal value followed by every live binding sorted
lexicographically by name — a permutation of the store, so the order never
depends on assignment order — each in its variant's canonical textual form:
bare decimal for `Int`, `true`/`false` for `Bool`, double-quoted text for
`Str`, and for `Float` the `{:?}` formatter's output, which contains a
decimal point on the whole decimal regime (zero, or magnitude in
`[1e-4, 1e16)`) but not necessarily outside it, where Rust switches to
exponent notation (`1e300` has no point).  (Both provisos are forced: a
`Void` binding drives the renderer into its `unreachable!()` panic so no
report is produced — see the counterexample — and the original
always-a-decimal-point reading fails at exponent-regime floats.) -/
theorem execute_renders_sorted_canonical_bindings :
    ∀ (fuel : Nat) (root : Node) (v : RelType) (st : Store),
      (eval fuel root [] = some (.Value v, st) ∨
        eval fuel root [] = some (.ReturnBlockInfo v, st)) →
      (∀ p ∈ st, p.2 ≠ RelType.Void) →
      ∃ (sorted : List (String × RelType)) (entries : List String),
        List.Sorted entryLe sorted ∧
        sorted.Perm st ∧
        renderEntries sorted = some entries ∧
        execute fuel root =
          some ("Return: " ++ displayRel v ++
            (if List.isEmpty st then ""
              else ", Memory: " ++ String.intercalate ", " entries)) ∧
        (∀ (k : String) (i : Int),
          renderEntry (k, .Int i) = some (k ++ " = " ++ toString i)) ∧
        (∀ (k : String) (f : F64),
          renderEntry (k, .Float f) = some (k ++ " = " ++ floatRepr f)) ∧
        (∀ q : ℚ, inDecimalRegime q → '.' ∈ (floatRepr (.finite q)).data) ∧
        (∀ (k : String) (b : Bool),
          renderEntry (k, .Bool b) =
            some (k ++ " = " ++ if b then "true" else "false")) ∧
        (∀ k s : String,
          renderEntry (k, .Str s) = some (k ++ " = " ++ "\"" ++ s ++ "\"")) := by
  intro fuel root v st hev hnv
  have hperm : (List.insertionSort entryLe st).Perm st :=
    List.perm_insertionSort entryLe st
  obtain ⟨es, hes⟩ := renderEntries_isSome (List.insertionSort entryLe st)
    (fun p hp => hnv p (hperm.mem_iff.mp hp))
  refine ⟨List.insertionSort entryLe st, es,
    List.sorted_insertionSort entryLe st, hperm, hes, ?_, ?_, ?_, ?_, ?_, ?_⟩
  · have hrm : renderMemory st =
        some (if List.isEmpty st then ""
          else ", Memory: " ++ String.intercalate ", " es) := by
      by_cases hemp : List.isEmpty st
      · simp [renderMemory, hemp]
      · simp [renderMemory, hemp, hes]
    rcases hev with h | h <;> simp [execute, h, renderReport, hrm]
  · intro k i; rfl
  · intro k f; rfl
  · intro q hq; exact dot_mem_floatRepr_decimal q hq
  · intro k b; cases b <;> rfl
  · intro k s; rfl

/-- C4 counterexample: the claim as stated fails on the program
`{ v = { }; 1 }`, whose evaluation succeeds (`Int 1`, with `v` bound to
`Void`), yet no report is rendered: the memory renderer hits the source's
`unreachable!()` panic on the `Void` binding (modelled as `none`), so the
promised terminal-value-plus-bindings report does not exist. -/
theorem execute_renders_sorted_canonical_bindings_counterexample :
    eval 4 (.Block [.Assign "v" (.Block []), .IntLiteral 1]) [] =
      some (.Value (.Int 1), [("v", .Void)]) ∧
    execute 4 (.Block [.Assign "v" (.Block []), .IntLiteral 1]) = none := by
  decide

theorem execute_renders_sorted_canonical_bindings_witness :
    ∃ (sorted : List (String × RelType)) (entries : List String),
      List.Sorted entryLe sorted ∧
      sorted.Perm [("x", RelType.Int 1), ("y", RelType.Int 2)] ∧
      renderEntries sorted = some entries ∧
      execute 4 (.Block [.Assign "y" (.IntLiteral 2), .Assign "x" (.IntLiteral 1)]) =
        some ("Return: " ++ displayRel (.Int 1) ++
          (if List.isEmpty ([("x", RelType.Int 1), ("y", RelType.Int 2)] : Store) then ""
            else ", Memory: " ++ String.intercalate ", " entries)) ∧
      (∀ (k : String) (i : Int),
        renderEntry (k, .Int i) = some (k ++ " = " ++ toString i)) ∧
      (∀ (k : String) (f : F64),
        renderEntry (k, .Float f) = some (k ++ " = " ++ floatRepr f)) ∧
      (∀ q : ℚ, inDecimalRegime q → '.' ∈ (floatRepr (.finite q)).data) ∧
      (∀ (k : String) (b : Bool),
        renderEntry (k, .Bool b) =
          some (k ++ " = " ++ if b then "true" else "false")) ∧
      (∀ k s : String,
        renderEntry (k, .Str s) = some (k ++ " = " ++ "\"" ++ s ++ "\"")) :=
  execute_renders_sorted_canonical_bindings 4
    (.Block [.Assign "y" (.IntLiteral 2), .Assign "x" (.IntLiteral 1)])
    (.Int 1) [("x", RelType.Int 1), ("y", RelType.Int 2)]
    (Or.inl (by decide)) (by decide)

theorem tableGet_insert_self (id : Nat) (e : RegistryEntry)
    (t : List (Nat × RegistryEntry)) : tableGet id (tableInsert id e t) = some e := by
  simp [tableGet, tableInsert]

theorem tableGet_modify (id : Nat) (f : RegistryEntry → RegistryEntry) :
    ∀ t : List (Nat × RegistryEntry),
      tableGet id (tableModify id f t) = (tableGet id t).map f := by
  intro t
  induction t with
  | nil => rfl
  | cons p t ih =>
    simp only [tableModify] at ih ⊢
    by_cases h : p.1 = id <;> simp [tableGet, h, ih]

theorem tableGet_remove_self (id : Nat) :
    ∀ t : List (Nat × RegistryEntry), tableGet id (tableRemove id t) = none := by
  intro t
  induction t with
  | nil => rfl
  | cons p t ih =>
    by_cases h : p.1 = id <;> simp [tableGet, tableRemove, List.filter_cons, h] <;>
      simpa [tableRemove] using ih

theorem tableGet_mem :
    ∀ (t : List (Nat × RegistryEntry)) (id : Nat) (e : RegistryEntry),
      tableGet id t = some e → (id, e) ∈ t := by
  intro t
  induction t with
  | nil => intro id e h; simp [tableGet] at h
  | cons p t ih =>
    intro id e h
    by_cases h1 : p.1 = id
    · simp [tableGet, h1] at h
      exact List.mem_cons.mpr (Or.inl (Prod.ext h1.symm h.symm))
    · simp [tableGet, h1] at h
      exact List.mem_cons_of_mem p (ih id e h)

theorem registry_release_absent (id : Int) (R : Registry)
    (h : tableGet (asUsize id) R.table = none) :
    registry_release id R = (R, []) := by
  simp [registry_release, h]

theorem registry_release_pos (id : Int) (R : Registry) (hd : NativeHandle) (n : Nat)
    (h : tableGet (asUsize id) R.table = some ⟨hd, n + 2⟩) :
    (registry_release id R).1 =
      ⟨tableModify (asUsize id) (fun _ => ⟨hd, n + 1⟩) R.table, R.nextId⟩ := by
  simp [registry_release, h]

theorem registry_release_last (id : Int) (R : Registry) (hd : NativeHandle)
    (h : tableGet (asUsize id) R.table = some ⟨hd, 1⟩) :
    (registry_release id R).1 = ⟨tableRemove (asUsize id) R.table, R.nextId⟩ := by
  simp [registry_release, h]

theorem retainTimes_get (id : Int) :
    ∀ (n : Nat) (R : Registry) (hd : NativeHandle) (k : Nat),
      tableGet (asUsize id) R.table = some ⟨hd, k⟩ →
      tableGet (asUsize id) (retainTimes id n R).table = some ⟨hd, k + n⟩ := by
  intro n
  induction n with
  | zero => intro R hd k h; simpa using h
  | succ n ih =>
    intro R hd k h
    have h1 : tableGet (asUsize id) (registry_retain id R).table =
        some ⟨hd, k + 1⟩ := by
      simp [registry_retain, tableGet_modify, h]
    have h2 := ih (registry_retain id R) hd (k + 1) h1
    rw [show k + (n + 1) = k + 1 + n from by omega]
    exact h2

theorem releaseTimes_get (id : Int) :
    ∀ (k n : Nat) (R : Registry) (hd : NativeHandle),
      k ≤ n →
      tableGet (asUsize id) R.table = some ⟨hd, n + 1⟩ →
      tableGet (asUsize id) (releaseTimes id k R).table =
        some ⟨hd, n + 1 - k⟩ := by
  intro k
  induction k with
  | zero => intro n R hd _ h; simpa using h
  | succ k ih =>
    intro n R hd hk h
    obtain ⟨m, rfl⟩ : ∃ m, n = m + 1 := ⟨n - 1, by omega⟩
    have h1 : tableGet (asUsize id) ((registry_release id R).1).table =
        some ⟨hd, m + 1⟩ := by
      rw [registry_release_pos id R hd m h]
      simp [tableGet_modify, h]
    have h2 := ih m (registry_release id R).1 hd (by omega) h1
    rw [show m + 1 + 1 - (k + 1) = m + 1 - k from by omega]
    exact h2

theorem releaseTimes_succ_outer (id : Int) :
    ∀ (n : Nat) (R : Registry),
      releaseTimes id (n + 1) R =
        (registry_release id (releaseTimes id n R)).1 := by
  intro n
  induction n with
  | zero => intro R; rfl
  | succ n ih =>
    intro R
    show releaseTimes id (n + 1) (registry_release id R).1 = _
    rw [ih (registry_release id R).1]
    rfl

theorem releaseTimes_removes (id : Int) (n : Nat) (R : Registry)
    (hd : NativeHandle)
    (h : tableGet (asUsize id) R.table = some ⟨hd, n + 1⟩) :
    tableGet (asUsize id) (releaseTimes id (n + 1) R).table = none := by
  rw [releaseTimes_succ_outer]
  have hn : tableGet (asUsize id) (releaseTimes id n R).table = some ⟨hd, 1⟩ := by
    have := releaseTimes_get id n n R hd le_rfl h
    simpa using this
  rw [registry_release_last id _ hd hn]
  simp [tableGet_remove_self]

theorem posT_insert (id : Nat) (e : RegistryEntry) (t : List (Nat × RegistryEntry))
    (he : 0 < e.ref_count) (h : ∀ p ∈ t, 0 < p.2.ref_count) :
    ∀ p ∈ tableInsert id e t, 0 < p.2.ref_count := by
  intro p hp
  rcases List.mem_cons.mp hp with rfl | hp'
  · exact he
  · exact h p (List.mem_of_mem_filter hp')

theorem posT_remove (id : Nat) (t : List (Nat × RegistryEntry))
    (h : ∀ p ∈ t, 0 < p.2.ref_count) :
    ∀ p ∈ tableRemove id t, 0 < p.2.ref_count :=
  fun p hp => h p (List.mem_of_mem_filter hp)

theorem posT_modify (id : Nat) (f : RegistryEntry → RegistryEntry)
    (t : List (Nat × RegistryEntry))
    (hf : ∀ e, 0 < e.ref_count → 0 < (f e).ref_count)
    (h : ∀ p ∈ t, 0 < p.2.ref_count) :
    ∀ p ∈ tableModify id f t, 0 < p.2.ref_count := by
  intro p hp
  rcases List.mem_map.mp hp with ⟨q, hq, rfl⟩
  by_cases h1 : q.1 = id <;> simp [h1]
  · exact hf q.2 (h q hq)
  · exact h q hq

theorem asUsize_create (R : Registry) :
    asUsize (registry_create_counter R).2 = R.nextId := by
  simp [registry_create_counter, asUsize]

theorem create_counter_get (R : Registry) :
    tableGet R.nextId (registry_create_counter R).1.table =
      some ⟨.Counter 0, 1⟩ := by
  simp [registry_create_counter, tableGet_insert_self]

theorem retain_release_chain_get (R : Registry) (N k : Nat) (hk : k ≤ N) :
    tableGet R.nextId
      (releaseTimes (registry_create_counter R).2 k
        (retainTimes (registry_create_counter R).2 N
          (registry_create_counter R).1)).table =
      some ⟨.Counter 0, N + 1 - k⟩ := by
  have hid := asUsize_create R
  have h0 : tableGet (asUsize (registry_create_counter R).2)
      (registry_create_counter R).1.table = some ⟨.Counter 0, 1⟩ := by
    rw [hid]
    exact create_counter_get R
  have hN := retainTimes_get (registry_create_counter R).2 N
    (registry_create_counter R).1 (.Counter 0) 1 h0
  rw [show 1 + N = N + 1 from Nat.add_comm 1 N] at hN
  have hrel := releaseTimes_get (registry_create_counter R).2 k N _ (.Counter 0)
    hk hN
  rw [← hid]
  exact hrel

/-- C7 (amended): retain/release are balanced — from a freshly created
counter entry with ref count 1, after `N` retains each of the first `N`
releases leaves the entry present with the exact positive count
`N + 1 - k`, the `(N+1)`-st release removes it (removal coinciding with the
count reaching zero), and a further release changes nothing, so the entry
is removed exactly once; releasing an already-absent handle is a *silent*
no-op — the source logs nothing on any release path — that never underflows
a count or double-removes an entry; and every table-mutating registry
operation preserves the invariant that each entry present in the table has
ref count > 0. -/
theorem registry_retain_release_balanced :
    (∀ (R : Registry) (N k : Nat), k ≤ N →
      tableGet R.nextId
        (releaseTimes (registry_create_counter R).2 k
          (retainTimes (registry_create_counter R).2 N
            (registry_create_counter R).1)).table =
        some ⟨.Counter 0, N + 1 - k⟩) ∧
    (∀ (R : Registry) (N : Nat),
      tableGet R.nextId
        (releaseTimes (registry_create_counter R).2 (N + 1)
          (retainTimes (registry_create_counter R).2 N
            (registry_create_counter R).1)).table = none) ∧
    (∀ (R : Registry) (N : Nat),
      releaseTimes (registry_create_counter R).2 (N + 2)
        (retainTimes (registry_create_counter R).2 N
          (registry_create_counter R).1) =
      releaseTimes (registry_create_counter R).2 (N + 1)
        (retainTimes (registry_create_counter R).2 N
          (registry_create_counter R).1)) ∧
    (∀ (id : Int) (R : Registry),
      tableGet (asUsize id) R.table = none → registry_release id R = (R, [])) ∧
    (∀ R, posRC R → posRC (registry_create_counter R).1) ∧
    (∀ id R, posRC R → posRC (registry_retain id R)) ∧
    (∀ id R, posRC R → posRC (registry_release id R).1) ∧
    (∀ id R, posRC R → posRC (registry_free id R).1) ∧
    (∀ id R, posRC R → posRC (registry_increment id R).1) ∧
    (∀ now R, posRC R → posRC (registry_now now R).1) ∧
    (∀ ok w h t R, posRC R → posRC (registry_create_window ok w h t R).1) ∧
    (∀ a d R, posRC R → posRC (registry_gpu_init a d R).1) ∧
    (∀ ok w h t R, posRC R → posRC (registry_voxel_world_create ok w h t R).1) ∧
    (∀ wh x y z R, posRC R → posRC (registry_voxel_add_block wh x y z R).1) := by
  refine ⟨retain_release_chain_get, ?_, ?_, registry_release_absent,
    ?_, ?_, ?_, ?_, ?_, ?_, ?_, ?_, ?_, ?_⟩
  · intro R N
    have hid := asUsize_create R
    have hN : tableGet (asUsize (registry_create_counter R).2)
        (retainTimes (registry_create_counter R).2 N
          (registry_create_counter R).1).table = some ⟨.Counter 0, N + 1⟩ := by
      rw [hid]
      simpa using retain_release_chain_get R N 0 (Nat.zero_le N)
    rw [← hid]
    exact releaseTimes_removes _ N _ (.Counter 0) hN
  · intro R N
    have hid := asUsize_create R
    have hN : tableGet (asUsize (registry_create_counter R).2)
        (retainTimes (registry_create_counter R).2 N
          (registry_create_counter R).1).table = some ⟨.Counter 0, N + 1⟩ := by
      rw [hid]
      simpa using retain_release_chain_get R N 0 (Nat.zero_le N)
    have habs := releaseTimes_removes _ N _ (.Counter 0) hN
    rw [releaseTimes_succ_outer _ (N + 1)]
    simp [registry_release_absent _ _ habs]
  · intro R h p hp
    exact posT_insert R.nextId ⟨.Counter 0, 1⟩ R.table Nat.one_pos h p hp
  · intro id R h p hp
    exact posT_modify (asUsize id) (fun e => ⟨e.handle, e.ref_count + 1⟩)
      R.table (fun e _ => Nat.succ_pos e.ref_count) h p hp
  · intro id R h
    rcases hget : tableGet (asUsize id) R.table with _ | e
    · simpa [registry_release, hget] using h
    · simp only [registry_release, hget]
      by_cases hrc : (if e.ref_count > 0 then e.ref_count - 1 else e.ref_count) = 0
      · rw [if_pos hrc]
        intro p hp
        exact posT_remove (asUsize id) R.table h p hp
      · rw [if_neg hrc]
        intro p hp
        exact posT_modify (asUsize id)
          (fun _ => ⟨e.handle,
            if e.ref_count > 0 then e.ref_count - 1 else e.ref_count⟩)
          R.table (fun _ _ => Nat.pos_of_ne_zero hrc) h p hp
  · intro id R h
    rcases hget : tableGet (asUsize id) R.table with _ | e
    · simpa [registry_free, hget] using h
    · simp only [registry_free, hget]
      intro p hp
      exact posT_remove (asUsize id) R.table h p hp
  · intro id R h
    rcases hget : tableGet (asUsize id) R.table with _ | ⟨hd, rc⟩
    · simpa [registry_increment, hget] using h
    · have hpos : (0 : Nat) < rc := h _ (tableGet_mem _ _ _ hget)
      cases hd with
      | Counter c =>
        simp only [registry_increment, hget]
        intro p hp
        exact posT_modify (asUsize id) (fun _ => ⟨.Counter (c + 1), rc⟩)
          R.table (fun _ _ => hpos) h p hp
      | Window => simpa [registry_increment, hget] using h
      | File => simpa [registry_increment, hget] using h
      | Timestamp t => simpa [registry_increment, hget] using h
      | GpuContext => simpa [registry_increment, hget] using h
      | VoxelWorld vs => simpa [registry_increment, hget] using h
  · intro now R h p hp
    exact posT_insert R.nextId ⟨.Timestamp now, 1⟩ R.table Nat.one_pos h p hp
  · intro ok w hh t R h
    cases ok
    · intro p hp
      exact h p hp
    · intro p hp
      exact posT_insert R.nextId ⟨.Window, 1⟩ R.table Nat.one_pos h p hp
  · intro a d R h
    cases a
    · intro p hp
      exact h p hp
    · cases d
      · intro p hp
        exact h p hp
      · intro p hp
        exact posT_insert R.nextId ⟨.GpuContext, 1⟩ R.table Nat.one_pos h p hp
  · intro ok w hh t R h
    cases ok
    · intro p hp
      exact h p hp
    · intro p hp
      exact posT_insert R.nextId ⟨.VoxelWorld [], 1⟩ R.table Nat.one_pos h p hp
  · intro wh x y z R h
    rcases hget : tableGet (asUsize wh) R.table with _ | ⟨hd, rc⟩
    · simpa [registry_voxel_add_block, hget] using h
    · have hpos : (0 : Nat) < rc := h _ (tableGet_mem _ _ _ hget)
      cases hd with
      | VoxelWorld vs =>
        simp only [registry_voxel_add_block, hget]
        intro p hp
        exact posT_modify (asUsize wh)
          (fun _ => ⟨.VoxelWorld (vs ++ [(x, y, z)]), rc⟩)
          R.table (fun _ _ => hpos) h p hp
      | Counter c => simpa [registry_voxel_add_block, hget] using h
      | Window => simpa [registry_voxel_add_block, hget] using h
      | File => simpa [registry_voxel_add_block, hget] using h
      | Timestamp t => simpa [registry_voxel_add_block, hget] using h
      | GpuContext => simpa [registry_voxel_add_block, hget] using h

/-- C7 counterexample: the claim calls releasing an already-absent handle a
*logged* no-op, but `registry_release` in the source emits no diagnostic on
any path: releasing handle 5 on an empty registry is a no-op whose
diagnostic output is empty. -/
theorem registry_release_absent_unlogged_counterexample :
    registry_release 5 ⟨[], 1⟩ = (⟨[], 1⟩, ([] : List String)) := by decide

theorem registry_retain_release_balanced_witness :
    tableGet 1 (releaseTimes (registry_create_counter ⟨[], 1⟩).2 1
      (retainTimes (registry_create_counter ⟨[], 1⟩).2 1
        (registry_create_counter ⟨[], 1⟩).1)).table =
      some ⟨.Counter 0, 1⟩ :=
  registry_retain_release_balanced.1 ⟨[], 1⟩ 1 1 (by decide)

/-- C8 (amended): a failed Window, VoxelWorld or GpuContext creation —
unavailable backend, no adapter, no device, window construction error —
returns the sentinel `-1` and inserts no entry, leaving the handle table
unchanged; for GpuContext and VoxelWorld the shared id counter is untouched
as well, but a failed Window creation still consumes one id, because the
source allocates the id before attempting the window construction. -/
theorem failed_creation_returns_sentinel_table_unchanged :
    (∀ (w h : Int) (t : String) (R : Registry),
      (registry_create_window false w h t R).2.1 = -1 ∧
      (registry_create_window false w h t R).1.table = R.table ∧
      (registry_create_window false w h t R).1.nextId = R.nextId + 1) ∧
    (∀ (d : Bool) (R : Registry),
      (registry_gpu_init false d R).2.1 = -1 ∧
      (registry_gpu_init false d R).1 = R) ∧
    (∀ R : Registry,
      (registry_gpu_init true false R).2.1 = -1 ∧
      (registry_gpu_init true false R).1 = R) ∧
    (∀ (w h : Int) (t : String) (R : Registry),
      (registry_voxel_world_create false w h t R).2.1 = -1 ∧
      (registry_voxel_world_create false w h t R).1 = R) := by
  refine ⟨?_, ?_, ?_, ?_⟩ <;> intros
  · exact ⟨rfl, rfl, rfl⟩
  · exact ⟨rfl, rfl⟩
  · exact ⟨rfl, rfl⟩
  · exact ⟨rfl, rfl⟩

/-- C8 counterexample: the claim says a failed creation consumes no handle
id, but a failed Window creation on the fresh registry (next id 1) leaves
the table unchanged yet advances the shared counter to 2: the id was
allocated before the window construction attempt and is lost. -/
theorem failed_window_creation_consumes_id_counterexample :
    (registry_create_window false 800 600 "KnotenCore" ⟨[], 1⟩).2.1 = -1 ∧
    (registry_create_window false 800 600 "KnotenCore" ⟨[], 1⟩).1.table = [] ∧
    (registry_create_window false 800 600 "KnotenCore" ⟨[], 1⟩).1.nextId = 2 := by
  decide

/-- C9 (amended): a registry operation applied to an absent or wrong-kind
handle returns its sentinel failure value (`-1` or a silent no-op) and the
operation is a total function — it never aborts the process; counter reads
and increments on *absent* handles log a not-found diagnostic, but
wrong-kind counter reads, elapsed-time queries and voxel add-block failures
are silent.  The scenario holds: a counter created and incremented three
times reads 3; after its release a further read returns `-1` and logs the
not-found diagnostic. -/
theorem absent_or_wrong_kind_handle_returns_sentinel :
    (∀ (id : Int) (R : Registry), tableGet (asUsize id) R.table = none →
      registry_get_value id R =
        (-1, ["[KnotenCore Registry] Error: Counter handle " ++ toString id
          ++ " not found."])) ∧
    (∀ (id : Int) (R : Registry) (hd : NativeHandle) (rc : Nat),
      tableGet (asUsize id) R.table = some ⟨hd, rc⟩ →
      (∀ c : Int, hd ≠ .Counter c) →
      registry_get_value id R = (-1, [])) ∧
    (∀ (now id : Int) (R : Registry), tableGet (asUsize id) R.table = none →
      registry_elapsed_ms now id R = (-1, [])) ∧
    (∀ (now id : Int) (R : Registry) (hd : NativeHandle) (rc : Nat),
      tableGet (asUsize id) R.table = some ⟨hd, rc⟩ →
      (∀ t : Int, hd ≠ .Timestamp t) →
      registry_elapsed_ms now id R = (-1, [])) ∧
    (∀ (id : Int) (R : Registry), tableGet (asUsize id) R.table = none →
      registry_increment id R =
        (R, ["[KnotenCore Registry] Error: Counter handle " ++ toString id
          ++ " not found."])) ∧
    (∀ (wh x y z : Int) (R : Registry), tableGet (asUsize wh) R.table = none →
      registry_voxel_add_block wh x y z R = (R, [])) ∧
    (registry_get_value 1
        ((registry_increment 1 ((registry_increment 1 ((registry_increment 1
          ((registry_create_counter ⟨[], 1⟩).1)).1)).1)).1) = (3, []) ∧
      registry_get_value 1
        ((registry_release 1
          ((registry_increment 1 ((registry_increment 1 ((registry_increment 1
            ((registry_create_counter ⟨[], 1⟩).1)).1)).1)).1)).1) =
        (-1, ["[KnotenCore Registry] Error: Counter handle " ++ toString (1 : Int)
          ++ " not found."])) := by
  refine ⟨?_, ?_, ?_, ?_, ?_, ?_, ?_⟩
  · intro id R h
    simp [registry_get_value, h]
  · intro id R hd rc hget hnc
    cases hd with
    | Counter c => exact absurd rfl (hnc c)
    | Window => simp [registry_get_value, hget]
    | File => simp [registry_get_value, hget]
    | Timestamp t => simp [registry_get_value, hget]
    | GpuContext => simp [registry_get_value, hget]
    | VoxelWorld vs => simp [registry_get_value, hget]
  · intro now id R h
    simp [registry_elapsed_ms, h]
  · intro now id R hd rc hget hnt
    cases hd with
    | Timestamp t => exact absurd rfl (hnt t)
    | Counter c => simp [registry_elapsed_ms, hget]
    | Window => simp [registry_elapsed_ms, hget]
    | File => simp [registry_elapsed_ms, hget]
    | GpuContext => simp [registry_elapsed_ms, hget]
    | VoxelWorld vs => simp [registry_elapsed_ms, hget]
  · intro id R h
    simp [registry_increment, h]
  · intro wh x y z R h
    simp [registry_voxel_add_block, h]
  · exact ⟨by decide, by decide⟩

/-- C9 counterexample: the claim requires every failing access to log a
diagnostic, but an elapsed-time query on an absent handle returns the
sentinel `-1` with an *empty* diagnostic log: `registry_elapsed_ms` in the
source has no logging path at all. -/
theorem absent_handle_silent_elapsed_counterexample :
    registry_elapsed_ms 1000 42 ⟨[], 1⟩ = (-1, ([] : List String)) := by decide

theorem absent_or_wrong_kind_handle_returns_sentinel_witness :
    registry_get_value 7 ⟨[], 1⟩ =
      (-1, ["[KnotenCore Registry] Error: Counter handle " ++ toString (7 : Int)
        ++ " not found."]) :=
  absent_or_wrong_kind_handle_returns_sentinel.1 7 ⟨[], 1⟩ rfl

end KnotenCore
